import Mathlib

/-!
Verification of the job-lifecycle manager of `server.go` (package `rce`).

The Go source is shallowly embedded: every definition below is translated
from a concrete piece of `src/server.go` (line numbers in the doc comments),
with machine integers modelled as `Int` (`int64`) or `Nat` with explicit
`% 2 ^ 64` (`uint64`), Go maps as association lists, goroutine environments
(pipe errors, pids, wall clock, process exit results) as explicit parameters,
and panics as an explicit outcome constructor.
-/

/-! ## Data model: status constants, `pb.JobStatus`, `pb.JobRequest` -/

/-- `STATUS_NOT_STARTED` — server.go line 28 (`int64 = iota`). -/
def STATUS_NOT_STARTED : Int := 0

/-- `STATUS_RUNNING` — server.go line 29. -/
def STATUS_RUNNING : Int := 1

/-- `STATUS_COMPLETED` — server.go line 30. -/
def STATUS_COMPLETED : Int := 2

/-- The fields of `pb.JobStatus` that `server.go` reads and writes.
Go zero values (`0`, `""`, `nil` slice) are made explicit where a field is
not set at construction time (`StartJob`, lines 231-239). -/
structure JobStatus where
  jobID : Nat
  jobName : String
  commandName : String
  status : Int
  pid : Int
  startTime : Int
  finishTime : Int
  exitCode : Int
  error : String
  stdout : List String
  stderr : List String
  args : List String
deriving Repr, DecidableEq

/-- The fields of `pb.JobRequest` that `StartJob` reads (lines 233-238). -/
structure JobRequest where
  jobName : String
  commandName : String
  arguments : List String
deriving Repr, DecidableEq

/-! ## JobID allocation (`getNewJobID`, lines 382-388)

`nextID` is a Go `uint64`, so the increment on line 386 wraps modulo `2 ^ 64`.
The `IDm` mutex makes each read-and-increment atomic, so any concurrent
history of calls is equivalent to a serial one; we model the serial history. -/

/-- Modulus of a Go `uint64`. -/
def UINT64_MOD : Nat := 2 ^ 64

/-- `getNewJobID` (lines 382-388): returns the current `nextID` and stores
its wrapped successor. -/
def getNewJobID (nextID : Nat) : Nat × Nat :=
  (nextID, (nextID + 1) % UINT64_MOD)

/-- The id returned by the `k`-th call to `getNewJobID` (0-based), starting
from counter value `init`.  `NewServer` starts the counter at 0 (line 103). -/
def nthID (init : Nat) : Nat → Nat
  | 0 => (getNewJobID init).1
  | k + 1 => nthID (getNewJobID init).2 k

/-! ## StartJob (lines 230-258) -/

/-- The `pb.JobStatus` literal built by `StartJob` (lines 231-239); `now` is
`time.Now().Unix()`.  `PID`, `FinishTime`, `Error`, `Stdout`, `Stderr` keep
their Go zero values. -/
def newJobStatus (id : Nat) (details : JobRequest) (now : Int) : JobStatus :=
  { jobID := id
    jobName := details.jobName
    status := STATUS_NOT_STARTED
    commandName := details.commandName
    startTime := now
    exitCode := -1
    args := details.arguments
    pid := 0
    finishTime := 0
    error := ""
    stdout := []
    stderr := [] }

/-- The server state that `StartJob`, `StopJob` and `GetJobs` touch:
the job registry `allJobs` (a `map[uint64]*runningJob`, modelled as an
association list of status values), the command whitelist, and the id
counter (lines 58-63). -/
structure ServerState where
  allJobs : List (Nat × JobStatus)
  runnableCommands : List (String × String)
  nextID : Nat
deriving Repr, DecidableEq

/-- `StartJob` (lines 230-258): allocates an id, builds the status, registers
the job, spawns `runJob` asynchronously (modelled separately), and returns a
snapshot of the fresh status together with a `nil` error.  The `Except` mirrors
the Go `(*pb.JobStatus, error)` return pair; `StartJob` has no failing path. -/
def StartJob (s : ServerState) (details : JobRequest) (now : Int) :
    Except String JobStatus × ServerState :=
  let idAndNext := getNewJobID s.nextID
  let st := newJobStatus idAndNext.1 details now
  (Except.ok st,
   { s with allJobs := s.allJobs ++ [(idAndNext.1, st)], nextID := idAndNext.2 })

/-! ## runJob (lines 275-378)

`runJob` runs in its own goroutine.  Everything it cannot determine by
itself — whether the two pipe constructors fail, whether `cmd.Start`
actually spawned a process, the pid, the result of `cmd.Wait`, and the
wall-clock value at finish time — is an explicit environment `RunEnv`.

Two faithfulness points:
* line 320 ignores the error returned by `cmd.Start()`; when the spawn
  fails, `cmd.Process` is `nil`, so line 330 (`cmd.Process.Pid`)
  dereferences a nil pointer and the goroutine panics after having set
  `Status = STATUS_RUNNING` on line 327.  This is the `crashed` outcome.
* the status writes are grouped exactly as the source's `statusM` critical
  sections group them, and the trace below records the status value after
  every assignment, in source order. -/

/-- The possible results of `cmd.Wait()` (line 338) as the code on lines
354-370 classifies them. -/
inductive WaitResult where
  /-- `Wait` returned `nil`: the process exited with status 0. -/
  | success
  /-- An `*exec.ExitError` whose `Sys()` is a `syscall.WaitStatus`:
  carries the exit status and the error's message. -/
  | exitStatus (code : Int) (msg : String)
  /-- An `*exec.ExitError` whose `Sys()` is not a `syscall.WaitStatus`. -/
  | exitNoStatus (msg : String)
  /-- Any other non-nil error from `Wait`. -/
  | otherError (msg : String)
deriving Repr, DecidableEq

/-- The environment a single `runJob` execution observes. -/
structure RunEnv where
  stdoutPipeErr : Option String
  stderrPipeErr : Option String
  startOk : Bool
  pid : Int
  waitResult : WaitResult
  finishTime : Int
deriving Repr, DecidableEq

/-- How a `runJob` goroutine ends. -/
inductive RunOutcome where
  /-- Normal return with the final status value. -/
  | ok (final : JobStatus)
  /-- Unrecovered nil-pointer panic at line 330 (`cmd.Process.Pid` after a
  failed `cmd.Start()` whose error line 320 discards); `lastSeen` is the
  status value at the moment of the panic. -/
  | crashed (lastSeen : JobStatus)
deriving Repr, DecidableEq

/-- The classification on lines 354-370 of `cmd.Wait()`'s result, applied to
the status record (exit code / error message only). -/
def classifyWait (j : JobStatus) : WaitResult → JobStatus
  | WaitResult.success => { j with exitCode := 0 }
  | WaitResult.exitStatus c m => { j with exitCode := c, error := m }
  | WaitResult.exitNoStatus m => { j with error := m }
  | WaitResult.otherError m => { j with error := m }

/-- `runJob` (lines 275-378), acting on the job's status record.  Returns the
sequence of successive status values it writes (in write order) together with
the outcome.  `runJob` itself never touches `Stdout`/`Stderr`; those are
appended by the collector goroutines, modelled separately. -/
def runJob (cmds : List (String × String)) (env : RunEnv) (job : JobStatus) :
    List JobStatus × RunOutcome :=
  match cmds.lookup job.commandName with
  | none =>
      -- lines 278-285: command name not in the whitelist
      let j := { job with
                  status := STATUS_COMPLETED
                  error := "Unable to find job for " ++ job.commandName }
      ([j], RunOutcome.ok j)
  | some _ =>
      match env.stdoutPipeErr with
      | some e =>
          -- lines 295-302: cmd.StdoutPipe() failed
          let j := { job with status := STATUS_COMPLETED, error := e }
          ([j], RunOutcome.ok j)
      | none =>
          match env.stderrPipeErr with
          | some e =>
              -- lines 306-313: cmd.StderrPipe() failed
              let j := { job with status := STATUS_COMPLETED, error := e }
              ([j], RunOutcome.ok j)
          | none =>
              if env.startOk then
                -- lines 324-332: one statusM section sets Running and the pid
                let j1 := { job with status := STATUS_RUNNING, pid := env.pid }
                -- line 347: FinishTime after Wait returns
                let j2 := { j1 with finishTime := env.finishTime }
                -- lines 354-370: exit code / error from Wait's result
                let j3 := classifyWait j2 env.waitResult
                -- line 373: the job state becomes Completed
                let j4 := { j3 with status := STATUS_COMPLETED }
                ([j1, j2, j3, j4], RunOutcome.ok j4)
              else
                -- line 327 sets Running, then line 330 panics (nil cmd.Process)
                let j1 := { job with status := STATUS_RUNNING }
                ([j1], RunOutcome.crashed j1)

/-- The sequence of status values a job record passes through when `runJob`
processes it: its initial value followed by every value `runJob` writes. -/
def statusTrace (cmds : List (String × String)) (env : RunEnv) (job : JobStatus) :
    List JobStatus :=
  job :: (runJob cmds env job).1

/-! ## StopJob (lines 197-225) -/

/-- The outcomes of `os.FindProcess` and `proc.Signal(syscall.SIGTERM)`
(lines 211-220), which depend on the operating system. -/
structure StopEnv where
  findProcessErr : Option String
  signalErr : Option String
deriving Repr, DecidableEq

/-- The error message of line 203. -/
def jobNotFoundMsg (id : Nat) : String :=
  "job=" ++ toString id ++ ": Job not found."

/-- The error message of line 207. -/
def jobNotRunningMsg (id : Nat) : String :=
  "job=" ++ toString id ++ ": Job not running."

/-- `StopJob` (lines 197-225): looks the job up, rejects ids that are unknown
or whose status is not `STATUS_RUNNING`, then asks the OS to deliver SIGTERM.
It returns the `(status-or-error)` pair and the registry it leaves behind;
the method never writes `allJobs` or any job's status (the signalled process's
own `runJob` goroutine will observe the exit independently). -/
def StopJob (jobs : List (Nat × JobStatus)) (id : Nat) (env : StopEnv) :
    Except String JobStatus × List (Nat × JobStatus) :=
  match jobs.lookup id with
  | none => (Except.error (jobNotFoundMsg id), jobs)
  | some st =>
      if st.status ≠ STATUS_RUNNING then
        (Except.error (jobNotRunningMsg id), jobs)
      else
        match env.findProcessErr with
        | some e =>
            (Except.error ("job=" ++ toString id ++ ": Process with pid " ++
              toString st.pid ++ " not found: " ++ e), jobs)
        | none =>
            match env.signalErr with
            | some e =>
                (Except.error ("job=" ++ toString id ++ ": Error killing pid " ++
                  toString st.pid ++ ": " ++ e), jobs)
            | none =>
                -- line 224: return s.getJobStatus(id), a snapshot of the status
                (Except.ok st, jobs)

/-! ## GetJobs (lines 160-174) -/

/-- `GetJobs` (lines 160-174), as the ids it streams to the caller.
Line 164 is an unconditional `return nil` placed before the filtering loop,
so the function streams nothing: the loop on lines 165-172 is dead code. -/
def GetJobs (jobs : List (Nat × JobStatus)) (since : Int) : List Nat :=
  []

/-- The dead filtering loop of lines 165-172 as written: stream the id of
every registered job whose `StartTime` is strictly greater than `since`. -/
def getJobsDeadLoop (jobs : List (Nat × JobStatus)) (since : Int) : List Nat :=
  (jobs.filter fun p => since < p.2.startTime).map fun p => p.1

/-- The list-jobs-since operation as the specification describes it
(`ListJobsSince(timestamp) -> sequence of ids matching jobs started after the
given time`): exactly the ids of registered jobs with `StartTime` strictly
greater than the timestamp. -/
def listJobsSinceSpec (jobs : List (Nat × JobStatus)) (since : Int) : List Nat :=
  (jobs.filter fun p => since < p.2.startTime).map fun p => p.1

/-! ## The output collector `copyPipeToStringArray` (lines 262-272)

The stream is modelled as the full byte/character content the pipe will ever
deliver (`List Char`); `bufio.Reader.ReadString('\n')` on such a stream
returns the prefix up to and including the first `'\n'`, or `io.EOF` together
with the undelimited remainder when no `'\n'` is left.  Each job's `Stdout`
entry is likewise a `List Char`. -/

/-- `bufio.Reader.ReadString('\n')` on the remaining stream content:
`some (line, rest)` with `line` ending in `'\n'` when a delimiter is present,
`none` (EOF; the partial remainder is discarded by the caller's loop
condition on line 266) otherwise. -/
def readStringNL : List Char → Option (List Char × List Char)
  | [] => none
  | c :: rest =>
      if c = '\n' then some ([c], rest)
      else
        match readStringNL rest with
        | some (l, r) => some (c :: l, r)
        | none => none

/-- Go's `unicode.IsSpace`: ASCII whitespace, the two Latin-1 space
characters, and the Unicode `White_Space` code points. -/
def goIsSpace (c : Char) : Bool :=
  c = '\t' || c = '\n' || c = '\x0b' || c = '\x0c' || c = '\r' || c = ' ' ||
  c = '\x85' || c = '\xa0' ||
  c = ' ' ||
  (' ' ≤ c && c ≤ ' ') ||
  c = ' ' || c = ' ' || c = ' ' || c = ' ' || c = '　'

/-- Trimming leading whitespace, as Go's `strings.TrimSpace` does on the left. -/
def goTrimLeft (l : List Char) : List Char :=
  l.dropWhile goIsSpace

/-- Trimming trailing whitespace, as Go's `strings.TrimSpace` does on the right. -/
def goTrimRight (l : List Char) : List Char :=
  (l.reverse.dropWhile goIsSpace).reverse

/-- Go's `strings.TrimSpace` (line 268): drop whitespace from both ends. -/
def goTrimSpace (l : List Char) : List Char :=
  goTrimLeft (goTrimRight l)

/-- `readStringNL` consumes at least one character when it succeeds. -/
theorem readStringNL_rest_lt :
    ∀ (l line rest : List Char), readStringNL l = some (line, rest) →
      rest.length < l.length := by
  intro l
  induction l with
  | nil => intro line rest h; simp [readStringNL] at h
  | cons c cs ih =>
      intro line rest h
      rw [readStringNL] at h
      by_cases hc : c = '\n'
      · rw [if_pos hc] at h
        simp only [Option.some.injEq, Prod.mk.injEq] at h
        obtain ⟨-, h2⟩ := h
        subst h2
        simp
      · rw [if_neg hc] at h
        cases hr : readStringNL cs with
        | none => rw [hr] at h; simp at h
        | some p =>
            rw [hr] at h
            simp only [Option.some.injEq, Prod.mk.injEq] at h
            obtain ⟨-, h2⟩ := h
            subst h2
            have := ih p.1 p.2 (by rw [hr])
            simp only [List.length_cons]
            omega

/-- `copyPipeToStringArray` (lines 262-272): read delimited lines until the
first read error (end of stream), appending `strings.TrimSpace` of each
complete line to `dest` in order.  The final undelimited remainder, if any,
is discarded by the loop condition. -/
def copyPipeToStringArray (dest : List (List Char)) (stream : List Char) :
    List (List Char) :=
  match h : readStringNL stream with
  | some p => copyPipeToStringArray (dest ++ [goTrimSpace p.1]) p.2
  | none => dest
termination_by stream.length
decreasing_by
  exact readStringNL_rest_lt stream p.1 p.2 h

/-- Splitting a character stream at every `'\n'` (the delimiter itself is in
no segment); there is always one final segment, the part after the last
delimiter (empty when the stream ends in `'\n'` or is empty). -/
def splitNL : List Char → List (List Char)
  | [] => [[]]
  | c :: rest =>
      if c = '\n' then [] :: splitNL rest
      else
        match splitNL rest with
        | [] => [[c]]
        | s :: ss => (c :: s) :: ss

/-- The complete (delimiter-terminated) lines of a stream, per the
specification's words: every segment before a `'\n'`, in emission order; the
final partial segment lacking a terminating delimiter is not a line. -/
def specCompleteLines (stream : List Char) : List (List Char) :=
  (splitNL stream).dropLast

/-! ## CopyStatus (lines 79-89) and slice aliasing

`CopyStatus` performs `*jc = *(rj.Status)` under all three job locks: a Go
struct copy, which copies every scalar field by value but copies the
`Stdout`/`Stderr` slice *headers* (backing-array pointer and length), so the
snapshot shares backing arrays with the live status.  To settle whether later
mutations can alter the snapshot, slices are modelled with an explicit store
of backing arrays: a `GoSlice` is a buffer id plus a length, the heap maps
buffer ids to array contents (array capacity = the stored list's length), and
Go's `append` (line 268) either writes in place at index `len` when capacity
remains or allocates a fresh buffer (the unspecified extra capacity Go's
growth policy adds is an arbitrary `pad`). -/

/-- A Go slice header: backing-array id and length. -/
structure GoSlice where
  bufId : Nat
  len : Nat
deriving Repr, DecidableEq

/-- The visible contents of a slice: the first `len` cells of its backing
array. -/
def viewSlice (heap : List (List String)) (s : GoSlice) : List String :=
  (heap.getD s.bufId []).take s.len

/-- Go's `append(dest, x)`: in place at index `len` when the backing array
has spare capacity, otherwise into a freshly allocated buffer whose spare
capacity beyond the new element is `pad`. -/
def appendSlice (heap : List (List String)) (s : GoSlice) (x : String)
    (pad : List String) : List (List String) × GoSlice :=
  let buf := heap.getD s.bufId []
  if s.len < buf.length then
    (heap.set s.bufId (buf.set s.len x), ⟨s.bufId, s.len + 1⟩)
  else
    (heap ++ [buf.take s.len ++ x :: pad], ⟨heap.length, s.len + 1⟩)

/-- The status record of one `runningJob` with the slice-level view of its
`Stdout` and `Stderr` fields made explicit (the scalar fields evolve exactly
as in `JobStatus`; they are copied by value by `CopyStatus` and are omitted
here because a value copy cannot alias). -/
structure JobHeapState where
  heap : List (List String)
  stdoutS : GoSlice
  stderrS : GoSlice
  status : Int
  pid : Int
deriving Repr, DecidableEq

/-- The mutations other goroutines perform on a job after a snapshot is
taken: collector appends (lines 267-269, one per stream) and the two
`statusM`-guarded scalar updates of `runJob` (lines 324-332 and 344-374). -/
inductive Mutation where
  | appendStdout (x : String) (pad : List String)
  | appendStderr (x : String) (pad : List String)
  | setRunning (pid : Int)
  | complete
deriving Repr, DecidableEq

/-- One mutation applied to the live job state. -/
def applyMutation (st : JobHeapState) : Mutation → JobHeapState
  | Mutation.appendStdout x pad =>
      let hs := appendSlice st.heap st.stdoutS x pad
      { st with heap := hs.1, stdoutS := hs.2 }
  | Mutation.appendStderr x pad =>
      let hs := appendSlice st.heap st.stderrS x pad
      { st with heap := hs.1, stderrS := hs.2 }
  | Mutation.setRunning p => { st with status := STATUS_RUNNING, pid := p }
  | Mutation.complete => { st with status := STATUS_COMPLETED }

/-- A sequence of mutations applied in order. -/
def applyMutations (st : JobHeapState) : List Mutation → JobHeapState
  | [] => st
  | m :: ms => applyMutations (applyMutation st m) ms

/-- Well-formedness of a job's slice state: both slice headers point at
distinct existing buffers and neither length exceeds its array's capacity.
`StartJob` establishes this with two distinct empty slices, and (as proved
below) every mutation preserves it. -/
def WFJob (st : JobHeapState) : Prop :=
  st.stdoutS.bufId < st.heap.length ∧ st.stderrS.bufId < st.heap.length ∧
  st.stdoutS.bufId ≠ st.stderrS.bufId ∧
  st.stdoutS.len ≤ (st.heap.getD st.stdoutS.bufId []).length ∧
  st.stderrS.len ≤ (st.heap.getD st.stderrS.bufId []).length

instance (st : JobHeapState) : Decidable (WFJob st) := by
  unfold WFJob; infer_instance

/-! ## The finalize/collector race (lines 303, 314, 338, 344-374)

The two collector goroutines are launched with `go` on lines 303 and 314 and
are never joined: there is no `sync.WaitGroup` (or any other synchronisation)
tying their completion to `runJob`, and `cmd.Wait()` (line 338) does not wait
for external readers of the pipes obtained via `StdoutPipe`/`StderrPipe`.
A collector's append (lines 267-269) takes only the stream's own mutex while
the finalize block (lines 344-374) takes only `statusM`, so the two critical
sections are unordered: after `Wait` returns, a collector that has read a
line but not yet appended it races against finalization, and every
interleaving of the two atomic sections is a possible execution.  The model:
each of the two remaining code fragments is a list of atomic (lock-protected)
actions, and a schedule picks which task steps next. -/

/-- An atomic, lock-protected step still pending after `cmd.Wait()` returns. -/
inductive RaceAction where
  /-- The whole `statusM` block of lines 344-374 (finish time, exit code,
  `Status = STATUS_COMPLETED`). -/
  | finalize (finishTime : Int) (exitCode : Int) (msg : String)
  /-- One `stdoutM`-guarded append of a trimmed line (lines 267-269). -/
  | appendOut (line : String)
deriving Repr, DecidableEq

/-- One atomic action applied to the job's status record. -/
def applyRaceAction (j : JobStatus) : RaceAction → JobStatus
  | RaceAction.finalize ft c m =>
      { j with finishTime := ft, exitCode := c, error := m,
               status := STATUS_COMPLETED }
  | RaceAction.appendOut l => { j with stdout := j.stdout ++ [l] }

/-- The racing tasks after `cmd.Wait()` returns: the runner's pending
actions, the stdout collector's pending actions, and the shared status. -/
structure RaceState where
  runner : List RaceAction
  collector : List RaceAction
  job : JobStatus
deriving Repr, DecidableEq

/-- One scheduler step: `true` runs the runner's next atomic action, `false`
the collector's (a task with nothing left to do idles). -/
def raceStep (s : RaceState) (b : Bool) : RaceState :=
  if b then
    match s.runner with
    | [] => s
    | a :: rest => { s with runner := rest, job := applyRaceAction s.job a }
  else
    match s.collector with
    | [] => s
    | a :: rest => { s with collector := rest, job := applyRaceAction s.job a }

/-- The sequence of shared-status values produced by a schedule: the value
readers can observe after each step. -/
def raceHistory (s : RaceState) : List Bool → List JobStatus
  | [] => []
  | b :: bs => (raceStep s b).job :: raceHistory (raceStep s b) bs

/-! ## Concrete inputs used by closed instantiations -/

/-- The spec's running example request. -/
def demoRequest : JobRequest := ⟨"t1", "echo-test", ["hello"]⟩

/-- A job registered at Unix time 5 and still in its initial state. -/
def demoStartedJob : JobStatus := newJobStatus 0 demoRequest 5

/-- The same job after a pre-start failure path marked it completed. -/
def demoCompletedJob : JobStatus := { demoStartedJob with status := STATUS_COMPLETED }

/-- The same job while running with pid 42. -/
def demoRunningJob : JobStatus := { demoStartedJob with status := STATUS_RUNNING, pid := 42 }

/-- An environment for a clean run: pipes fine, spawn fine, exit status 0. -/
def demoEnv : RunEnv := ⟨none, none, true, 42, WaitResult.success, 7⟩

/-! ## Helper lemmas -/

/-- A `String` append is empty only if both parts are. -/
theorem append_ne_empty_of_left_ne_empty (s t : String) (h : s ≠ "") : s ++ t ≠ "" := by
  intro he
  apply h
  have hd : (s ++ t).data = ([] : List Char) := congrArg String.data he
  rw [String.data_append] at hd
  rcases List.append_eq_nil.mp hd with ⟨h1, -⟩
  cases s
  simp_all

/-- `classifyWait` never changes the lifecycle state field. -/
theorem classifyWait_status (j : JobStatus) (w : WaitResult) :
    (classifyWait j w).status = j.status := by
  cases w <;> rfl

/-- `classifyWait` never changes the start time. -/
theorem classifyWait_startTime (j : JobStatus) (w : WaitResult) :
    (classifyWait j w).startTime = j.startTime := by
  cases w <;> rfl

/-- `classifyWait` never changes the finish time. -/
theorem classifyWait_finishTime (j : JobStatus) (w : WaitResult) :
    (classifyWait j w).finishTime = j.finishTime := by
  cases w <;> rfl

/-- `classifyWait` never changes the pid. -/
theorem classifyWait_pid (j : JobStatus) (w : WaitResult) :
    (classifyWait j w).pid = j.pid := by
  cases w <;> rfl

/-- The id returned by the `k`-th allocator call is the initial counter plus
`k`, wrapped modulo `2 ^ 64`. -/
theorem nthID_eq : ∀ (k init : Nat), init < UINT64_MOD →
    nthID init k = (init + k) % UINT64_MOD := by
  intro k
  induction k with
  | zero =>
      intro init h
      simp [nthID, getNewJobID, Nat.mod_eq_of_lt h]
  | succ k ih =>
      intro init h
      have hm : (init + 1) % UINT64_MOD < UINT64_MOD :=
        Nat.mod_lt _ (by norm_num [UINT64_MOD])
      calc nthID init (k + 1) = nthID ((init + 1) % UINT64_MOD) k := rfl
        _ = ((init + 1) % UINT64_MOD + k) % UINT64_MOD := ih _ hm
        _ = (init + 1 + k) % UINT64_MOD := Nat.mod_add_mod _ _ _
        _ = (init + (k + 1)) % UINT64_MOD := by ring_nf

/-! ## Claim theorems -/

/-- C2, counterexample: the id allocator is a wrapping `uint64` counter, so
the claim "any number of calls never yield duplicate ids" fails: starting
from `NewServer`'s counter value 0, call number 0 and call number `2 ^ 64`
both return id 0. -/
theorem c2_nthID_wraps_counterexample :
    nthID 0 0 = nthID 0 UINT64_MOD ∧ (0 : Nat) ≠ UINT64_MOD := by
  constructor
  · rw [nthID_eq 0 0 (by norm_num [UINT64_MOD]),
        nthID_eq UINT64_MOD 0 (by norm_num [UINT64_MOD])]
    simp
  · norm_num [UINT64_MOD]

/-- C2, amended: as long as fewer than `2 ^ 64` ids have been handed out
(so the `uint64` counter has not wrapped), every allocator call returns an
id strictly greater than — in particular distinct from — every previously
returned id. -/
theorem c2_nthID_strictly_increasing (j k : Nat) (hjk : j < k)
    (hk : k < UINT64_MOD) :
    nthID 0 j < nthID 0 k ∧ nthID 0 j ≠ nthID 0 k := by
  have hj : j < UINT64_MOD := lt_trans hjk hk
  have ej : nthID 0 j = j := by
    rw [nthID_eq j 0 (by norm_num [UINT64_MOD])]
    simpa using Nat.mod_eq_of_lt hj
  have ek : nthID 0 k = k := by
    rw [nthID_eq k 0 (by norm_num [UINT64_MOD])]
    simpa using Nat.mod_eq_of_lt hk
  rw [ej, ek]
  exact ⟨hjk, Nat.ne_of_lt hjk⟩

/-- Witness for the amended C2: the second call's id exceeds the first's. -/
theorem c2_nthID_strictly_increasing_witness :
    nthID 0 0 < nthID 0 1 ∧ nthID 0 0 ≠ nthID 0 1 :=
  c2_nthID_strictly_increasing 0 1 (by norm_num) (by norm_num [UINT64_MOD])

/-- C5: `GetJobs` never streams any id — its unconditional `return nil`
(line 164) precedes the filtering loop — although both the dead loop as
written and the specified list-since operation stream the id of a job whose
`StartTime` (5) is strictly greater than the given timestamp (3).  This
evaluates the code at the failing input of the claim. -/
theorem c5_getJobs_streams_nothing :
    GetJobs [(0, demoStartedJob)] 3 = [] ∧
    listJobsSinceSpec [(0, demoStartedJob)] 3 = [0] ∧
    getJobsDeadLoop [(0, demoStartedJob)] 3 = [0] :=
  ⟨rfl, rfl, rfl⟩

/-- C8: `StopJob` on an unknown id returns the job-not-found error, on a
known job whose state is not `STATUS_RUNNING` returns the job-not-running
error, and in every case (error or not) leaves the registry — hence every
job's status — exactly as it found it. -/
theorem c8_stopJob_errors (jobs : List (Nat × JobStatus)) (id : Nat)
    (env : StopEnv) :
    (jobs.lookup id = none →
      (StopJob jobs id env).1 = Except.error (jobNotFoundMsg id)) ∧
    (∀ st, jobs.lookup id = some st → st.status ≠ STATUS_RUNNING →
      (StopJob jobs id env).1 = Except.error (jobNotRunningMsg id)) ∧
    (StopJob jobs id env).2 = jobs := by
  refine ⟨fun hnone => ?_, fun st hst hnr => ?_, ?_⟩
  · simp [StopJob, hnone]
  · simp [StopJob, hst, hnr]
  · unfold StopJob
    cases hl : jobs.lookup id with
    | none => rfl
    | some st =>
        by_cases hr : st.status = STATUS_RUNNING
        · simp only [hr]
          cases env.findProcessErr <;> cases env.signalErr <;> simp
        · simp [hr]

/-- Witness for C8: with one completed job (id 0), stopping id 1 reports
job-not-found, stopping id 0 reports job-not-running, and the registry is
untouched. -/
theorem c8_stopJob_errors_witness :
    (StopJob [(0, demoCompletedJob)] 1 ⟨none, none⟩).1 =
      Except.error (jobNotFoundMsg 1) ∧
    (StopJob [(0, demoCompletedJob)] 0 ⟨none, none⟩).1 =
      Except.error (jobNotRunningMsg 0) ∧
    (StopJob [(0, demoCompletedJob)] 0 ⟨none, none⟩).2 =
      [(0, demoCompletedJob)] :=
  ⟨(c8_stopJob_errors [(0, demoCompletedJob)] 1 ⟨none, none⟩).1 rfl,
   (c8_stopJob_errors [(0, demoCompletedJob)] 0 ⟨none, none⟩).2.1
     demoCompletedJob rfl (by decide),
   (c8_stopJob_errors [(0, demoCompletedJob)] 0 ⟨none, none⟩).2.2⟩

/-- C10: `StartJob` never fails synchronously: for every server state
(whatever the whitelist contains) and every request, it returns a status —
in its initial `STATUS_NOT_STARTED`, exit-code `-1` form, with the request's
fields copied in — paired with a `nil` error.  Command-resolution failure is
only discovered later, inside the `runJob` goroutine. -/
theorem c10_startJob_never_fails (s : ServerState) (details : JobRequest)
    (now : Int) :
    ∃ j, (StartJob s details now).1 = Except.ok j ∧
      j.status = STATUS_NOT_STARTED ∧ j.exitCode = -1 ∧
      j.jobName = details.jobName ∧ j.commandName = details.commandName ∧
      j.args = details.arguments := by
  exact ⟨newJobStatus (getNewJobID s.nextID).1 details now,
    rfl, rfl, rfl, rfl, rfl, rfl⟩

/-- C1: along every `runJob` execution — the only code that writes the
`Status` field — the sequence of values the job's lifecycle state passes
through (including the crash path in which a failed `cmd.Start()`'s error is
ignored and the goroutine panics) moves only forward: for every earlier/later
pair of recorded states, the earlier is `≤` the later in the order
NotStarted < Running < Completed, and once a recorded state is Completed
every later one is Completed as well. -/
theorem c1_statusTrace_monotone (cmds : List (String × String)) (env : RunEnv)
    (job : JobStatus) (h : job.status = STATUS_NOT_STARTED) :
    List.Pairwise
      (fun a b => a.status ≤ b.status ∧
        (a.status = STATUS_COMPLETED → b.status = STATUS_COMPLETED))
      (statusTrace cmds env job) := by
  unfold statusTrace runJob
  cases hl : cmds.lookup job.commandName with
  | none =>
      simp [List.pairwise_cons, h, STATUS_NOT_STARTED, STATUS_COMPLETED]
  | some c =>
      cases hso : env.stdoutPipeErr with
      | some e =>
          simp [List.pairwise_cons, h, STATUS_NOT_STARTED, STATUS_COMPLETED]
      | none =>
          cases hse : env.stderrPipeErr with
          | some e =>
              simp [List.pairwise_cons, h, STATUS_NOT_STARTED, STATUS_COMPLETED]
          | none =>
              cases hst : env.startOk with
              | false =>
                  simp [List.pairwise_cons, h, STATUS_NOT_STARTED,
                        STATUS_RUNNING, STATUS_COMPLETED]
              | true =>
                  simp [List.pairwise_cons, h, classifyWait_status,
                        STATUS_NOT_STARTED, STATUS_RUNNING, STATUS_COMPLETED]

/-- Witness for C1: the trace of a clean run of the demo job is monotone. -/
theorem c1_statusTrace_monotone_witness :
    List.Pairwise
      (fun a b => a.status ≤ b.status ∧
        (a.status = STATUS_COMPLETED → b.status = STATUS_COMPLETED))
      (statusTrace [("echo-test", "/bin/echo")] demoEnv demoStartedJob) :=
  c1_statusTrace_monotone [("echo-test", "/bin/echo")] demoEnv demoStartedJob rfl

/-- C3: when the command name is not in the whitelist, or `cmd.StdoutPipe()`
or `cmd.StderrPipe()` fails before the child process is started, `runJob`
performs exactly one status write, taking the job straight to
`STATUS_COMPLETED` with a non-empty error message and the untouched `-1`
exit code, and no value in the job's status trace is ever
`STATUS_RUNNING`.  (Pipe errors come from the OS; a Go error's message is
assumed non-empty.) -/
theorem c3_runJob_prestart_failure (cmds : List (String × String))
    (env : RunEnv) (job : JobStatus)
    (h0 : job.status = STATUS_NOT_STARTED) (hec : job.exitCode = -1)
    (hfail : cmds.lookup job.commandName = none ∨
      env.stdoutPipeErr ≠ none ∨ env.stderrPipeErr ≠ none)
    (hso : ∀ e, env.stdoutPipeErr = some e → e ≠ "")
    (hse : ∀ e, env.stderrPipeErr = some e → e ≠ "") :
    ∃ j, runJob cmds env job = ([j], RunOutcome.ok j) ∧
      j.status = STATUS_COMPLETED ∧ j.error ≠ "" ∧ j.exitCode = -1 ∧
      ∀ k ∈ statusTrace cmds env job, k.status ≠ STATUS_RUNNING := by
  cases hl : cmds.lookup job.commandName with
  | none =>
      refine ⟨{ job with
                  status := STATUS_COMPLETED
                  error := "Unable to find job for " ++ job.commandName },
              ?_, rfl, ?_, hec, ?_⟩
      · unfold runJob
        rw [hl]
      · exact append_ne_empty_of_left_ne_empty _ _ (by decide)
      · intro k hk
        unfold statusTrace runJob at hk
        rw [hl] at hk
        simp at hk
        rcases hk with hk | hk <;> rw [hk]
        · rw [h0]; decide
        · show STATUS_COMPLETED ≠ STATUS_RUNNING
          decide
  | some c =>
      cases hsoe : env.stdoutPipeErr with
      | some e =>
          refine ⟨{ job with status := STATUS_COMPLETED, error := e },
                  ?_, rfl, hso e hsoe, hec, ?_⟩
          · unfold runJob
            rw [hl, hsoe]
          · intro k hk
            unfold statusTrace runJob at hk
            rw [hl, hsoe] at hk
            simp at hk
            rcases hk with hk | hk <;> rw [hk]
            · rw [h0]; decide
            · show STATUS_COMPLETED ≠ STATUS_RUNNING
              decide
      | none =>
          cases hsee : env.stderrPipeErr with
          | some e =>
              refine ⟨{ job with status := STATUS_COMPLETED, error := e },
                      ?_, rfl, hse e hsee, hec, ?_⟩
              · unfold runJob
                rw [hl, hsoe, hsee]
              · intro k hk
                unfold statusTrace runJob at hk
                rw [hl, hsoe, hsee] at hk
                simp at hk
                rcases hk with hk | hk <;> rw [hk]
                · rw [h0]; decide
                · show STATUS_COMPLETED ≠ STATUS_RUNNING
                  decide
          | none =>
              exfalso
              rcases hfail with hf | hf | hf
              · rw [hl] at hf; cases hf
              · exact hf hsoe
              · exact hf hsee

/-- Witness for C3: with an empty whitelist, the demo job completes in one
step with a non-empty error, exit code -1, and never shows Running. -/
theorem c3_runJob_prestart_failure_witness :
    ∃ j, runJob [] demoEnv demoStartedJob = ([j], RunOutcome.ok j) ∧
      j.status = STATUS_COMPLETED ∧ j.error ≠ "" ∧ j.exitCode = -1 ∧
      ∀ k ∈ statusTrace [] demoEnv demoStartedJob, k.status ≠ STATUS_RUNNING :=
  c3_runJob_prestart_failure [] demoEnv demoStartedJob rfl rfl
    (Or.inl rfl) (fun e he => by cases he) (fun e he => by cases he)

/-- C4: when the command name resolves, both pipes are created, the spawn
succeeds, and the process exits with status 0 (`cmd.Wait()` returns `nil`),
`runJob` on a freshly constructed `StartJob` status ends with state
`STATUS_COMPLETED`, exit code 0, an empty error message, the (positive)
recorded pid, and a finish time no earlier than the start time.  (The OS
guarantees a positive pid; the wall clock at finish is assumed not to
precede the clock at submission.) -/
theorem c4_runJob_clean_exit (cmds : List (String × String)) (env : RunEnv)
    (details : JobRequest) (id : Nat) (now : Int) (c : String)
    (hres : cmds.lookup details.commandName = some c)
    (hsoe : env.stdoutPipeErr = none) (hsee : env.stderrPipeErr = none)
    (hst : env.startOk = true) (hw : env.waitResult = WaitResult.success)
    (hpid : 0 < env.pid) (hft : now ≤ env.finishTime) :
    ∃ j, (runJob cmds env (newJobStatus id details now)).2 = RunOutcome.ok j ∧
      j.status = STATUS_COMPLETED ∧ j.exitCode = 0 ∧ j.error = "" ∧
      0 < j.pid ∧ j.startTime ≤ j.finishTime := by
  refine ⟨{ jobID := id, jobName := details.jobName,
            commandName := details.commandName, status := STATUS_COMPLETED,
            pid := env.pid, startTime := now, finishTime := env.finishTime,
            exitCode := 0, error := "", stdout := [], stderr := [],
            args := details.arguments }, ?_, rfl, rfl, rfl, hpid, hft⟩
  unfold runJob
  have hcn : (newJobStatus id details now).commandName = details.commandName := rfl
  rw [hcn, hres, hsoe, hsee, hst, hw]
  rfl

/-- Witness for C4: the demo request against a whitelist resolving
`echo-test`, in the clean-run environment. -/
theorem c4_runJob_clean_exit_witness :
    ∃ j, (runJob [("echo-test", "/bin/echo")] demoEnv
            (newJobStatus 0 demoRequest 5)).2 = RunOutcome.ok j ∧
      j.status = STATUS_COMPLETED ∧ j.exitCode = 0 ∧ j.error = "" ∧
      0 < j.pid ∧ j.startTime ≤ j.finishTime :=
  c4_runJob_clean_exit [("echo-test", "/bin/echo")] demoEnv demoRequest 0 5
    "/bin/echo" rfl rfl rfl rfl rfl (by norm_num [demoEnv]) (by norm_num [demoEnv])

/-! ## Snapshot immutability lemmas -/

/-- Writing a cell at an index the prefix does not reach leaves the prefix
unchanged. -/
theorem take_set_of_index_le (l : List String) (i n : Nat) (x : String)
    (h : n ≤ i) : (l.set i x).take n = l.take n := by
  apply List.ext_getElem?
  intro m
  rw [List.getElem?_take, List.getElem?_take]
  by_cases hm : m < n
  · rw [if_pos hm, if_pos hm, List.getElem?_set_ne (by omega : i ≠ m)]
  · rw [if_neg hm, if_neg hm]

/-- Replacing one buffer leaves every other buffer's contents unchanged. -/
theorem getD_set_ne_buf (heap : List (List String)) (i j : Nat)
    (b : List String) (hij : i ≠ j) :
    (heap.set i b).getD j [] = heap.getD j [] := by
  rw [List.getD_eq_getElem?_getD, List.getD_eq_getElem?_getD,
      List.getElem?_set_ne hij]

/-- Allocating a fresh buffer leaves every existing buffer's contents
unchanged. -/
theorem getD_append_lt (heap : List (List String)) (b : List String) (j : Nat)
    (hj : j < heap.length) :
    (heap ++ [b]).getD j [] = heap.getD j [] := by
  rw [List.getD_eq_getElem?_getD, List.getD_eq_getElem?_getD,
      List.getElem?_append, if_pos hj]

/-- A slice's view is untouched by a write to a different buffer. -/
theorem viewSlice_set_ne (heap : List (List String)) (i : Nat)
    (b : List String) (s : GoSlice) (h : s.bufId ≠ i) :
    viewSlice (heap.set i b) s = viewSlice heap s := by
  unfold viewSlice
  rw [getD_set_ne_buf heap i s.bufId b (Ne.symm h)]

/-- A slice's view is untouched by allocation of a fresh buffer. -/
theorem viewSlice_extend (heap : List (List String)) (b : List String)
    (s : GoSlice) (h : s.bufId < heap.length) :
    viewSlice (heap ++ [b]) s = viewSlice heap s := by
  unfold viewSlice
  rw [getD_append_lt heap b s.bufId h]

/-- The protection invariant tying a snapshot's two slice headers (`s1` for
stdout, `s2` for stderr) to the evolving live job state: both snapshot
buffers exist, the live slice over a snapshot's buffer is at least as long
as the snapshot, and neither live slice aliases the *other* stream's
snapshot buffer.  `CopyStatus`'s lock acquisition guarantees this at the
moment the headers are copied, and every mutation preserves it. -/
def SnapInv (s1 s2 : GoSlice) (st : JobHeapState) : Prop :=
  s1.bufId < st.heap.length ∧ s2.bufId < st.heap.length ∧
  st.stdoutS.bufId < st.heap.length ∧ st.stderrS.bufId < st.heap.length ∧
  (st.stdoutS.bufId = s1.bufId → s1.len ≤ st.stdoutS.len) ∧
  (st.stderrS.bufId = s2.bufId → s2.len ≤ st.stderrS.len) ∧
  st.stdoutS.bufId ≠ s2.bufId ∧ st.stderrS.bufId ≠ s1.bufId

/-- `appendSlice` when spare capacity remains: write in place. -/
theorem appendSlice_inplace (heap : List (List String)) (s : GoSlice)
    (x : String) (pad : List String)
    (h : s.len < (heap.getD s.bufId []).length) :
    appendSlice heap s x pad =
      (heap.set s.bufId ((heap.getD s.bufId []).set s.len x),
       ⟨s.bufId, s.len + 1⟩) := by
  unfold appendSlice
  rw [if_pos h]

/-- `appendSlice` when capacity is exhausted: allocate a fresh buffer. -/
theorem appendSlice_grow (heap : List (List String)) (s : GoSlice)
    (x : String) (pad : List String)
    (h : ¬ s.len < (heap.getD s.bufId []).length) :
    appendSlice heap s x pad =
      (heap ++ [(heap.getD s.bufId []).take s.len ++ x :: pad],
       ⟨heap.length, s.len + 1⟩) := by
  unfold appendSlice
  rw [if_neg h]

/-- One mutation preserves the protection invariant and leaves both snapshot
views unchanged. -/
theorem snapInv_step (s1 s2 : GoSlice) (st : JobHeapState) (m : Mutation)
    (h : SnapInv s1 s2 st) :
    SnapInv s1 s2 (applyMutation st m) ∧
    viewSlice (applyMutation st m).heap s1 = viewSlice st.heap s1 ∧
    viewSlice (applyMutation st m).heap s2 = viewSlice st.heap s2 := by
  obtain ⟨h1, h2, h3, h4, h5, h6, h7, h8⟩ := h
  cases m with
  | setRunning p => exact ⟨⟨h1, h2, h3, h4, h5, h6, h7, h8⟩, rfl, rfl⟩
  | complete => exact ⟨⟨h1, h2, h3, h4, h5, h6, h7, h8⟩, rfl, rfl⟩
  | appendStdout x pad =>
      by_cases hcap :
          st.stdoutS.len < (st.heap.getD st.stdoutS.bufId []).length
      · simp only [applyMutation, appendSlice_inplace _ _ _ _ hcap]
        refine ⟨⟨?_, ?_, ?_, ?_, ?_, h6, h7, h8⟩, ?_, ?_⟩
        · simpa using h1
        · simpa using h2
        · simpa using h3
        · simpa using h4
        · intro he
          exact le_trans (h5 he) (Nat.le_succ _)
        · by_cases hb : s1.bufId = st.stdoutS.bufId
          · unfold viewSlice
            rw [hb]
            rw [List.getD_eq_getElem?_getD
                  (st.heap.set st.stdoutS.bufId
                    ((st.heap.getD st.stdoutS.bufId []).set st.stdoutS.len x)),
                List.getElem?_set, if_pos rfl, if_pos h3]
            simp only [Option.getD_some]
            rw [take_set_of_index_le _ _ _ _ (h5 hb.symm)]
          · exact viewSlice_set_ne _ _ _ _ hb
        · exact viewSlice_set_ne _ _ _ _ (Ne.symm h7)
      · simp only [applyMutation, appendSlice_grow _ _ _ _ hcap]
        refine ⟨⟨?_, ?_, ?_, ?_, ?_, h6, ?_, h8⟩, ?_, ?_⟩
        · simp only [List.length_append, List.length_singleton]; omega
        · simp only [List.length_append, List.length_singleton]; omega
        · simp only [List.length_append, List.length_singleton]; omega
        · simp only [List.length_append, List.length_singleton]; omega
        · intro he
          exact absurd he (by omega : ¬ st.heap.length = s1.bufId)
        · exact (by omega : ¬ st.heap.length = s2.bufId)
        · exact viewSlice_extend _ _ _ h1
        · exact viewSlice_extend _ _ _ h2
  | appendStderr x pad =>
      by_cases hcap :
          st.stderrS.len < (st.heap.getD st.stderrS.bufId []).length
      · simp only [applyMutation, appendSlice_inplace _ _ _ _ hcap]
        refine ⟨⟨?_, ?_, ?_, ?_, h5, ?_, h7, h8⟩, ?_, ?_⟩
        · simpa using h1
        · simpa using h2
        · simpa using h3
        · simpa using h4
        · intro he
          exact le_trans (h6 he) (Nat.le_succ _)
        · exact viewSlice_set_ne _ _ _ _ (Ne.symm h8)
        · by_cases hb : s2.bufId = st.stderrS.bufId
          · unfold viewSlice
            rw [hb]
            rw [List.getD_eq_getElem?_getD
                  (st.heap.set st.stderrS.bufId
                    ((st.heap.getD st.stderrS.bufId []).set st.stderrS.len x)),
                List.getElem?_set, if_pos rfl, if_pos h4]
            simp only [Option.getD_some]
            rw [take_set_of_index_le _ _ _ _ (h6 hb.symm)]
          · exact viewSlice_set_ne _ _ _ _ hb
      · simp only [applyMutation, appendSlice_grow _ _ _ _ hcap]
        refine ⟨⟨?_, ?_, ?_, ?_, h5, ?_, h7, ?_⟩, ?_, ?_⟩
        · simp only [List.length_append, List.length_singleton]; omega
        · simp only [List.length_append, List.length_singleton]; omega
        · simp only [List.length_append, List.length_singleton]; omega
        · simp only [List.length_append, List.length_singleton]; omega
        · intro he
          exact absurd he (by omega : ¬ st.heap.length = s2.bufId)
        · exact (by omega : ¬ st.heap.length = s1.bufId)
        · exact viewSlice_extend _ _ _ h1
        · exact viewSlice_extend _ _ _ h2

/-- Any sequence of mutations leaves both snapshot views unchanged. -/
theorem snapInv_run (s1 s2 : GoSlice) :
    ∀ (ops : List Mutation) (st : JobHeapState), SnapInv s1 s2 st →
      viewSlice (applyMutations st ops).heap s1 = viewSlice st.heap s1 ∧
      viewSlice (applyMutations st ops).heap s2 = viewSlice st.heap s2 := by
  intro ops
  induction ops with
  | nil => intro st _; exact ⟨rfl, rfl⟩
  | cons m ms ih =>
      intro st h
      obtain ⟨hinv, hv1, hv2⟩ := snapInv_step s1 s2 st m h
      obtain ⟨e1, e2⟩ := ih (applyMutation st m) hinv
      exact ⟨by rw [applyMutations, e1, hv1], by rw [applyMutations, e2, hv2]⟩

/-- C6: `CopyStatus` (lines 79-89) copies the status struct — scalars by
value and the `Stdout`/`Stderr` slice *headers* — while holding all three
job locks (status, stdout, stderr), so the copy captures one consistent
point in time.  Although the backing arrays remain shared with the live
status, no later mutation (a collector append on either stream, the
set-running update, or completion) ever changes what the snapshot shows:
in-place appends only write at indices at or beyond the live length, which
is at least the snapshot's captured length, and capacity growth moves the
live slice to a fresh buffer.  Scalar fields are value copies and cannot
alias at all. -/
theorem c6_copyStatus_snapshot_immutable (st : JobHeapState)
    (ops : List Mutation) (hwf : WFJob st) :
    viewSlice (applyMutations st ops).heap st.stdoutS =
      viewSlice st.heap st.stdoutS ∧
    viewSlice (applyMutations st ops).heap st.stderrS =
      viewSlice st.heap st.stderrS := by
  obtain ⟨w1, w2, w3, -, -⟩ := hwf
  exact snapInv_run st.stdoutS st.stderrS ops st
    ⟨w1, w2, w1, w2, fun _ => le_refl _, fun _ => le_refl _, w3,
     fun hc => w3 hc.symm⟩

/-- Witness for C6: a running job with two distinct one-cell-capacity
buffers; after an in-place stdout append, a growing stderr append, and
completion, both snapshot views are unchanged. -/
theorem c6_copyStatus_snapshot_immutable_witness :
    viewSlice (applyMutations
        ⟨[["old"], []], ⟨0, 0⟩, ⟨1, 0⟩, STATUS_RUNNING, 42⟩
        [Mutation.appendStdout "a" [], Mutation.appendStderr "b" ["junk"],
         Mutation.complete]).heap (GoSlice.mk 0 0) =
      viewSlice [["old"], []] (GoSlice.mk 0 0) ∧
    viewSlice (applyMutations
        ⟨[["old"], []], ⟨0, 0⟩, ⟨1, 0⟩, STATUS_RUNNING, 42⟩
        [Mutation.appendStdout "a" [], Mutation.appendStderr "b" ["junk"],
         Mutation.complete]).heap (GoSlice.mk 1 0) =
      viewSlice [["old"], []] (GoSlice.mk 1 0) :=
  c6_copyStatus_snapshot_immutable
    ⟨[["old"], []], ⟨0, 0⟩, ⟨1, 0⟩, STATUS_RUNNING, 42⟩
    [Mutation.appendStdout "a" [], Mutation.appendStderr "b" ["junk"],
     Mutation.complete]
    (by constructor <;> simp [WFJob])

/-- C7 fails on the code: nothing joins the collector goroutines (lines 303
and 314) before the finalize block (lines 344-374) runs — `cmd.Wait()` does
not wait for external pipe readers, and finalize takes only `statusM` while
an append takes only `stdoutM` — so the schedule that runs finalize first
and then a pending append is a real execution.  In it the first observable
state is already `STATUS_COMPLETED` with an empty stdout, and a line is
appended *after* that, contradicting both halves of the claim. -/
theorem c7_append_after_completed_visible :
    (raceHistory
        ⟨[RaceAction.finalize 7 0 ""], [RaceAction.appendOut "late"],
         demoRunningJob⟩
        [true, false]).map (fun j => (j.status, j.stdout)) =
      [(STATUS_COMPLETED, []), (STATUS_COMPLETED, ["late"])] := by
  rfl

/-! ## Collector correctness lemmas -/

/-- `readStringNL` fails exactly on delimiter-free streams. -/
theorem readStringNL_none : ∀ (l : List Char), readStringNL l = none →
    '\n' ∉ l := by
  intro l
  induction l with
  | nil => intro _ h; simp at h
  | cons c cs ih =>
      intro h
      rw [readStringNL] at h
      by_cases hc : c = '\n'
      · rw [if_pos hc] at h; cases h
      · rw [if_neg hc] at h
        cases hr : readStringNL cs with
        | some p => rw [hr] at h; cases h
        | none =>
            intro hm
            rcases List.mem_cons.mp hm with hm | hm
            · exact hc hm.symm
            · exact ih hr hm

/-- A successful `readStringNL` splits the stream into a delimiter-free
prefix, the delimiter, and the rest, and returns the prefix with its
delimiter. -/
theorem readStringNL_some :
    ∀ (l line rest : List Char), readStringNL l = some (line, rest) →
      ∃ pre, line = pre ++ ['\n'] ∧ '\n' ∉ pre ∧ l = pre ++ '\n' :: rest := by
  intro l
  induction l with
  | nil => intro line rest h; simp [readStringNL] at h
  | cons c cs ih =>
      intro line rest h
      rw [readStringNL] at h
      by_cases hc : c = '\n'
      · rw [if_pos hc] at h
        simp only [Option.some.injEq, Prod.mk.injEq] at h
        obtain ⟨e1, e2⟩ := h
        subst e1
        subst e2
        exact ⟨[], by rw [hc]; rfl, by simp, by rw [hc]; rfl⟩
      · rw [if_neg hc] at h
        cases hr : readStringNL cs with
        | none => rw [hr] at h; cases h
        | some p =>
            rw [hr] at h
            simp only [Option.some.injEq, Prod.mk.injEq] at h
            obtain ⟨e1, e2⟩ := h
            obtain ⟨pre, f1, f2, f3⟩ := ih p.1 p.2 (by rw [hr])
            refine ⟨c :: pre, ?_, ?_, ?_⟩
            · rw [← e1, f1]; rfl
            · intro hm
              rcases List.mem_cons.mp hm with hm | hm
              · exact hc hm.symm
              · exact f2 hm
            · rw [← e2]
              calc c :: cs = c :: (pre ++ '\n' :: p.2) := by rw [← f3]
                _ = (c :: pre) ++ '\n' :: p.2 := rfl

/-- `splitNL` always produces at least one segment. -/
theorem splitNL_ne_nil : ∀ (l : List Char), splitNL l ≠ [] := by
  intro l
  cases l with
  | nil => simp [splitNL]
  | cons c cs =>
      rw [splitNL]
      by_cases hc : c = '\n'
      · rw [if_pos hc]; simp
      · rw [if_neg hc]
        cases splitNL cs <;> simp

/-- A delimiter-free stream is one single (partial) segment. -/
theorem splitNL_no_nl : ∀ (l : List Char), '\n' ∉ l → splitNL l = [l] := by
  intro l
  induction l with
  | nil => intro _; rfl
  | cons c cs ih =>
      intro h
      have hc : ¬ c = '\n' := fun e => h (e ▸ List.mem_cons_self c cs)
      have hcs : '\n' ∉ cs := fun m => h (List.mem_cons_of_mem c m)
      rw [splitNL, if_neg hc, ih hcs]

/-- Splitting a stream that starts with a complete line yields that line's
content followed by the split of the rest. -/
theorem splitNL_append : ∀ (pre rest : List Char), '\n' ∉ pre →
    splitNL (pre ++ '\n' :: rest) = pre :: splitNL rest := by
  intro pre
  induction pre with
  | nil => intro rest _; rw [List.nil_append, splitNL, if_pos rfl]
  | cons c cs ih =>
      intro rest h
      have hc : ¬ c = '\n' := fun e => h (e ▸ List.mem_cons_self c cs)
      have hcs : '\n' ∉ cs := fun m => h (List.mem_cons_of_mem c m)
      rw [List.cons_append, splitNL, if_neg hc, ih rest hcs]

/-- Trimming absorbs a trailing delimiter: the delimiter is whitespace. -/
theorem goTrimSpace_append_nl (pre : List Char) :
    goTrimSpace (pre ++ ['\n']) = goTrimSpace pre := by
  unfold goTrimSpace goTrimRight
  rw [List.reverse_append]
  have : goIsSpace '\n' = true := rfl
  simp [List.dropWhile, this]

/-- `copyPipeToStringArray` at end of stream returns the accumulator. -/
theorem copyPipeToStringArray_eos (dest : List (List Char))
    (stream : List Char) (h : readStringNL stream = none) :
    copyPipeToStringArray dest stream = dest := by
  unfold copyPipeToStringArray
  split
  · next p hp => rw [h] at hp; cases hp
  · rfl

/-- `copyPipeToStringArray` on a readable line appends its trimmed form and
continues on the rest. -/
theorem copyPipeToStringArray_line (dest : List (List Char))
    (stream : List Char) (p : List Char × List Char)
    (h : readStringNL stream = some p) :
    copyPipeToStringArray dest stream =
      copyPipeToStringArray (dest ++ [goTrimSpace p.1]) p.2 := by
  conv_lhs => unfold copyPipeToStringArray
  split
  · next q hq =>
      rw [h] at hq
      injection hq with hq
      rw [hq]
  · next hq => rw [h] at hq; cases hq

/-- The collector's accumulator equation: what it appends is exactly the
trimmed complete lines of the remaining stream. -/
theorem copyPipeToStringArray_eq_specLines :
    ∀ (n : Nat) (stream : List Char) (dest : List (List Char)),
      stream.length ≤ n →
      copyPipeToStringArray dest stream =
        dest ++ (specCompleteLines stream).map goTrimSpace := by
  intro n
  induction n with
  | zero =>
      intro stream dest h
      have : stream = [] := List.eq_nil_of_length_eq_zero (Nat.le_zero.mp h)
      subst this
      rw [copyPipeToStringArray_eos dest [] rfl]
      simp [specCompleteLines, splitNL]
  | succ n ih =>
      intro stream dest h
      cases hr : readStringNL stream with
      | none =>
          rw [copyPipeToStringArray_eos dest stream hr]
          rw [specCompleteLines, splitNL_no_nl stream (readStringNL_none stream hr)]
          simp
      | some p =>
          obtain ⟨pre, e1, e2, e3⟩ := readStringNL_some stream p.1 p.2 hr
          have hlt : p.2.length < stream.length :=
            readStringNL_rest_lt stream p.1 p.2 hr
          rw [copyPipeToStringArray_line dest stream p hr,
              ih p.2 (dest ++ [goTrimSpace p.1]) (by omega)]
          simp only [specCompleteLines]
          rw [e3, splitNL_append pre p.2 e2,
              List.dropLast_cons_of_ne_nil (splitNL_ne_nil p.2)]
          rw [List.map_cons, e1, goTrimSpace_append_nl]
          rw [List.append_assoc]
          rfl

/-- C9: on every stream content, the output collector appends to the job's
sequence exactly the whitespace-trimmed complete (newline-terminated) lines
of the stream, in emission order; the final partial line lacking a
terminating delimiter is discarded and never appended. -/
theorem c9_collector_appends_trimmed_complete_lines (stream : List Char) :
    copyPipeToStringArray [] stream =
      (specCompleteLines stream).map goTrimSpace := by
  rw [copyPipeToStringArray_eq_specLines stream.length stream []
        (le_refl _)]
  rfl
